import Mathlib

/-!
Verification of the wallet client's core logic (aptos-web3.js).

The definitions below are a shallow embedding of `wallet_client.ts`.
External collaborators that live outside the repository (the bip39
library, the `AptosClient` / `TokenClient` / `FaucetClient` transports)
are passed in as function parameters, mirroring how the TypeScript code
calls out to them.  The `HexString` component is present in the
repository only through its test file, so it is modelled from the spec
(see the doc comments below).
-/

/-- Token identity triple, `TokenId` in `wallet_client.ts`:
`{ creator, collectionName, name }`. -/
structure TokenId where
  creator : String
  collectionName : String
  name : String
deriving DecidableEq, Repr

/-- Payload of an event: the `data` field carries the token identity and
an amount (the amount is never consulted by the reconciliation code). -/
structure EventData where
  id : TokenId
  amount : Nat
deriving DecidableEq, Repr

/-- An event from an event stream: a per-handle sequence number plus the
event data. -/
structure Event where
  sequenceNumber : Nat
  data : EventData
deriving DecidableEq, Repr

/-- Result of one HTTP fetch of an event page.  `status` is the HTTP
status code and `events` the decoded body.  `nextCursor` models the
spec's opaque pagination cursor for the event-fetch collaborator; the
TypeScript `getEventStream` never reads it. -/
structure FetchResponse where
  status : Nat
  events : List Event
  nextCursor : Option Nat
deriving DecidableEq, Repr

/-- Embedding of `WalletClient.getEventStream`: one `fetch` of
`/accounts/{address}/events/{handle}/{field}` (no cursor is ever
supplied, which we model as calling the collaborator at cursor `none`);
a 404 response yields the empty list, any other response yields its
decoded body. -/
def WalletClient.getEventStream (fetchPage : Option Nat → FetchResponse) : List Event :=
  let response := fetchPage none
  if response.status == 404 then [] else response.events

/-- Follows the spec's words (refinement comparison definition, not code
from the repository): the "fetch-until-exhausted" iterator contract —
keep requesting pages while a next cursor is present, starting from no
cursor, and concatenate all pages.  `fuel` bounds the recursion. -/
def fetchAllPagesFrom (fetchPage : Option Nat → FetchResponse) :
    Nat → Option Nat → List Event
  | 0, _ => []
  | fuel + 1, cursor =>
    let r := fetchPage cursor
    match r.nextCursor with
    | none => r.events
    | some c => r.events ++ fetchAllPagesFrom fetchPage fuel (some c)

/-- Follows the spec's words: exhaust the stream starting with no cursor. -/
def fetchAllPages (fetchPage : Option Nat → FetchResponse) (fuel : Nat) : List Event :=
  fetchAllPagesFrom fetchPage fuel none

/-- Embedding of the local helper `isEventEqual` inside
`WalletClient.getTokenIds`: two events are equal when the three fields of
their token identities agree. -/
def isEventEqual (event1 event2 : Event) : Bool :=
  event1.data.id.creator == event2.data.id.creator &&
  event1.data.id.collectionName == event2.data.id.collectionName &&
  event1.data.id.name == event2.data.id.name

/-- Body of `WalletClient.getTokenIds` after its two `getEventStream`
awaits, operating on the two fetched streams.  The three `for` loops
that push into `tokenIds` are rendered as `filter`/`map`:
`getAll` returns every deposit identity; `getMinted` keeps the deposits
whose creator is the string `"0x" ++ address`; otherwise a deposit is
kept when no withdrawal event is `isEventEqual` to it. -/
def WalletClient.getTokenIdsFromEvents (address : String) (getAll getMinted : Bool)
    (depositEvents withdrawEvents : List Event) : List TokenId :=
  if getAll then
    depositEvents.map (fun elem => elem.data.id)
  else if getMinted then
    (depositEvents.filter (fun elem => elem.data.id.creator == "0x" ++ address)).map
      (fun elem => elem.data.id)
  else
    (depositEvents.filter (fun elem =>
        ! withdrawEvents.any (fun item => isEventEqual item elem))).map
      (fun elem => elem.data.id)

/-- Embedding of `WalletClient.getTokenIds`: fetch the deposit stream
and the withdraw stream (each a single `getEventStream` call on the
`0x1::Token::TokenStore` handle), then reconcile. -/
def WalletClient.getTokenIds (address : String) (getAll getMinted : Bool)
    (fetchDeposit fetchWithdraw : Option Nat → FetchResponse) : List TokenId :=
  let depositEvents := WalletClient.getEventStream fetchDeposit
  let withdrawEvents := WalletClient.getEventStream fetchWithdraw
  WalletClient.getTokenIdsFromEvents address getAll getMinted depositEvents withdrawEvents

theorem TokenId.eq_iff (a b : TokenId) :
    a = b ↔ a.creator = b.creator ∧ a.collectionName = b.collectionName ∧ a.name = b.name := by
  cases a; cases b; simp [and_assoc]

theorem isEventEqual_iff (a b : Event) : isEventEqual a b = true ↔ a.data.id = b.data.id := by
  simp [isEventEqual, TokenId.eq_iff, and_assoc]

/-- The owned-tokens branch of the reconciliation (both flags false)
unfolds to a filter of the deposits against the withdrawals. -/
theorem owned_eq_filter (address : String) (deposits withdraws : List Event) :
    WalletClient.getTokenIdsFromEvents address false false deposits withdraws
      = (deposits.filter (fun elem =>
          ! withdraws.any (fun item => isEventEqual item elem))).map
        (fun elem => elem.data.id) := rfl

/-- Membership in the owned-tokens reconciliation: an identity is
returned exactly when it occurs among the deposit identities and not
among the withdrawal identities. -/
theorem mem_owned_iff (address : String) (t : TokenId) (deposits withdraws : List Event) :
    t ∈ WalletClient.getTokenIdsFromEvents address false false deposits withdraws ↔
      t ∈ deposits.map (fun e => e.data.id) ∧ t ∉ withdraws.map (fun e => e.data.id) := by
  rw [owned_eq_filter]
  simp only [List.mem_map, List.mem_filter, List.any_eq_true, Bool.not_eq_true',
    Bool.eq_false_iff, isEventEqual_iff]
  constructor
  · rintro ⟨e, ⟨he, hf⟩, rfl⟩
    refine ⟨⟨e, he, rfl⟩, fun hcon => hf ?_⟩
    rw [List.any_eq_true]
    obtain ⟨w, hw, hwid⟩ := hcon
    exact ⟨w, hw, (isEventEqual_iff w e).mpr hwid⟩
  · rintro ⟨⟨e, he, rfl⟩, hnw⟩
    refine ⟨e, ⟨he, fun hany => hnw ?_⟩, rfl⟩
    rw [List.any_eq_true] at hany
    obtain ⟨w, hw, hweq⟩ := hany
    exact ⟨w, hw, (isEventEqual_iff w e).mp hweq⟩

/-- Sample deposit events used by concrete witnesses: identities A, B, C
of a common creator. -/
def evA : Event := ⟨0, ⟨⟨"0xc", "col", "A"⟩, 1⟩⟩

def evB : Event := ⟨1, ⟨⟨"0xc", "col", "B"⟩, 1⟩⟩

def evC : Event := ⟨2, ⟨⟨"0xc", "col", "B2"⟩, 1⟩⟩

/-- Sample withdrawal event carrying identity B (a different amount and
sequence number than the deposit of B). -/
def evBw : Event := ⟨5, ⟨⟨"0xc", "col", "B"⟩, 9⟩⟩

/-- C1: the owned-tokens query (getTokenIds with getAll=false and
getMinted=false) returns, for every pair of fetched deposit and
withdrawal streams, exactly the set of TokenIdentity triples appearing
in some deposit event with no identity-equal counterpart in any
withdrawal event; amounts (and sequence numbers) and the order of the
two streams do not affect the resulting set. -/
theorem getTokenIds_owned_set_difference (address : String) (t : TokenId)
    (deposits withdraws deposits2 withdraws2 : List Event) :
    (t ∈ WalletClient.getTokenIdsFromEvents address false false deposits withdraws ↔
      (∃ e ∈ deposits, e.data.id = t) ∧ ∀ w ∈ withdraws, w.data.id ≠ t)
    ∧ (deposits.map (fun e => e.data.id) = deposits2.map (fun e => e.data.id) →
       withdraws.map (fun e => e.data.id) = withdraws2.map (fun e => e.data.id) →
       (t ∈ WalletClient.getTokenIdsFromEvents address false false deposits2 withdraws2 ↔
        t ∈ WalletClient.getTokenIdsFromEvents address false false deposits withdraws))
    ∧ (deposits.Perm deposits2 → withdraws.Perm withdraws2 →
       (t ∈ WalletClient.getTokenIdsFromEvents address false false deposits2 withdraws2 ↔
        t ∈ WalletClient.getTokenIdsFromEvents address false false deposits withdraws)) := by
  refine ⟨?_, ?_, ?_⟩
  · rw [mem_owned_iff]
    simp [List.mem_map]
  · intro hd hw
    rw [mem_owned_iff, mem_owned_iff, hd, hw]
  · intro pd pw
    rw [mem_owned_iff, mem_owned_iff,
      (pd.map (fun e => e.data.id)).mem_iff, (pw.map (fun e => e.data.id)).mem_iff]

/-- Witness for C1 at concrete streams: deposits {A, B, B2} with a
withdrawal of {B} own A; reordering the deposit stream and changing
amounts does not change membership. -/
theorem getTokenIds_owned_set_difference_witness :
    (⟨"0xc", "col", "A"⟩ : TokenId) ∈
      WalletClient.getTokenIdsFromEvents ("addr") false false [evA, evB, evC] [evBw]
    ∧ ((⟨"0xc", "col", "A"⟩ : TokenId) ∈
        WalletClient.getTokenIdsFromEvents ("addr") false false [evB, evA, evC] [evBw]
      ↔ (⟨"0xc", "col", "A"⟩ : TokenId) ∈
        WalletClient.getTokenIdsFromEvents ("addr") false false [evA, evB, evC] [evBw])
    ∧ ((⟨"0xc", "col", "A"⟩ : TokenId) ∈
        WalletClient.getTokenIdsFromEvents ("addr") false false
          [⟨7, ⟨⟨"0xc", "col", "A"⟩, 3⟩⟩, ⟨8, ⟨⟨"0xc", "col", "B"⟩, 3⟩⟩,
            ⟨9, ⟨⟨"0xc", "col", "B2"⟩, 3⟩⟩] [⟨0, ⟨⟨"0xc", "col", "B"⟩, 2⟩⟩]
      ↔ (⟨"0xc", "col", "A"⟩ : TokenId) ∈
        WalletClient.getTokenIdsFromEvents ("addr") false false [evA, evB, evC] [evBw]) := by
  have h1 := getTokenIds_owned_set_difference ("addr") ⟨"0xc", "col", "A"⟩
      [evA, evB, evC] [evBw] [evB, evA, evC] [evBw]
  have h2 := getTokenIds_owned_set_difference ("addr") ⟨"0xc", "col", "A"⟩
      [evA, evB, evC] [evBw]
      [⟨7, ⟨⟨"0xc", "col", "A"⟩, 3⟩⟩, ⟨8, ⟨⟨"0xc", "col", "B"⟩, 3⟩⟩,
        ⟨9, ⟨⟨"0xc", "col", "B2"⟩, 3⟩⟩] [⟨0, ⟨⟨"0xc", "col", "B"⟩, 2⟩⟩]
  exact ⟨(h1.1).mpr (by decide), h1.2.2 (by decide) (by decide),
    h2.2.1 (by decide) (by decide)⟩

/-- C9: when getTokenIds is called with getAll=true it returns the
identity of every deposit event of the fetched stream, in stream order
and one entry per event; the withdrawal stream and the getMinted flag
(including getMinted=true) play no role. -/
theorem getTokenIds_getAll_every_deposit (address : String) (getMinted : Bool)
    (fetchDeposit fetchWithdraw : Option Nat → FetchResponse) :
    WalletClient.getTokenIds address true getMinted fetchDeposit fetchWithdraw
      = (WalletClient.getEventStream fetchDeposit).map (fun elem => elem.data.id) := rfl

/-- The minted branch of the reconciliation unfolds to a filter of the
deposits on the creator string. -/
theorem minted_eq_filter (address : String) (deposits withdraws : List Event) :
    WalletClient.getTokenIdsFromEvents address false true deposits withdraws
      = (deposits.filter (fun elem => elem.data.id.creator == "0x" ++ address)).map
        (fun elem => elem.data.id) := rfl

/-- Deposit event whose creator string is literally the address "a",
with no 0x mark. -/
def evLitA : Event := ⟨0, ⟨⟨"a", "col", "N"⟩, 1⟩⟩

/-- Deposit event whose creator string is "0xa". -/
def evHexA : Event := ⟨0, ⟨⟨"0xa", "col", "N"⟩, 1⟩⟩

/-- C4 counterexample: with queried address "a", a deposit event whose
creator field equals the queried address verbatim is NOT returned by the
minted query, while a deposit whose creator is "0xa" (not equal to the
queried address) IS returned: the filter compares the creator against
the 0x-prefixed string, not against the address itself. -/
theorem getTokenIds_minted_literal_creator_counterexample :
    evLitA.data.id.creator = ("a")
    ∧ WalletClient.getTokenIdsFromEvents ("a") false true [evLitA] [] = []
    ∧ evHexA.data.id.creator ≠ ("a")
    ∧ WalletClient.getTokenIdsFromEvents ("a") false true [evHexA] []
        = [evHexA.data.id] := by decide

/-- C4 (amended): mintedTokens (getTokenIds with getMinted=true) returns
exactly the identities of the deposit events whose creator field equals
the 0x-prefixed form of the queried address, the string "0x" ++ address;
withdrawal events play no role in this result. -/
theorem getTokenIds_minted_0x_creator (address : String) (t : TokenId)
    (deposits withdraws withdraws2 : List Event) :
    (t ∈ WalletClient.getTokenIdsFromEvents address false true deposits withdraws ↔
      (∃ e ∈ deposits, e.data.id = t) ∧ t.creator = "0x" ++ address)
    ∧ WalletClient.getTokenIdsFromEvents address false true deposits withdraws
      = WalletClient.getTokenIdsFromEvents address false true deposits withdraws2 := by
  constructor
  · rw [minted_eq_filter]
    simp only [List.mem_map, List.mem_filter, beq_iff_eq]
    constructor
    · rintro ⟨e, ⟨he, hc⟩, rfl⟩
      exact ⟨⟨e, he, rfl⟩, hc⟩
    · rintro ⟨⟨e, he, rfl⟩, hc⟩
      exact ⟨e, ⟨he, hc⟩, rfl⟩
  · rfl

/-- A paginated event-fetch collaborator used as a counterexample: the
first page holds evA and announces a next cursor; the page at that
cursor holds evB and is final. -/
def twoPageFetch : Option Nat → FetchResponse
  | none => ⟨200, [evA], some 1⟩
  | some _ => ⟨200, [evB], none⟩

/-- A collaborator agreeing with twoPageFetch on the first page but
differing on every later page. -/
def twoPageFetchAlt : Option Nat → FetchResponse
  | none => ⟨200, [evA], some 1⟩
  | some _ => ⟨200, [evC], none⟩

/-- A collaborator whose stream is empty. -/
def emptyFetch : Option Nat → FetchResponse := fun _ => ⟨200, [], none⟩

/-- C2 counterexample: getEventStream returns only the first page even
though that page announces a next cursor, so its result is not the
concatenation of all pages, and the owned-tokens query computes its
result from that partial fetch. -/
theorem getEventStream_ignores_cursor_counterexample :
    (twoPageFetch none).nextCursor = some 1
    ∧ WalletClient.getEventStream twoPageFetch = [evA]
    ∧ fetchAllPages twoPageFetch 2 = [evA, evB]
    ∧ WalletClient.getEventStream twoPageFetch ≠ fetchAllPages twoPageFetch 2
    ∧ WalletClient.getTokenIds ("a") false false twoPageFetch emptyFetch
        = [evA.data.id]
    ∧ WalletClient.getTokenIdsFromEvents ("a") false false
        (fetchAllPages twoPageFetch 2) []
        = [evA.data.id, evB.data.id] := by decide

/-- C2 (amended): getEventStream issues exactly one fetch, with no
cursor: its result depends only on the collaborator's first page, and
whenever that page is not a 404 the events of that single page are
returned as they are, even when a next cursor is present; no further
page is ever requested. -/
theorem getEventStream_single_fetch (fetchPage fetchPage2 : Option Nat → FetchResponse)
    (h : fetchPage none = fetchPage2 none) :
    WalletClient.getEventStream fetchPage = WalletClient.getEventStream fetchPage2
    ∧ ((fetchPage none).status ≠ 404 →
        WalletClient.getEventStream fetchPage = (fetchPage none).events) := by
  constructor
  · unfold WalletClient.getEventStream
    rw [h]
  · intro hs
    unfold WalletClient.getEventStream
    simp only [beq_iff_eq]
    rw [if_neg hs]

/-- Witness for C2's amended theorem: the stream result agrees between
two collaborators sharing a first page, and equals that first page. -/
theorem getEventStream_single_fetch_witness :
    WalletClient.getEventStream twoPageFetch = WalletClient.getEventStream twoPageFetchAlt
    ∧ WalletClient.getEventStream twoPageFetch = (twoPageFetch none).events := by
  have h := getEventStream_single_fetch twoPageFetch twoPageFetchAlt (by decide)
  exact ⟨h.1, h.2 (by decide)⟩

/-- A collaborator answering 404 (with a decoy body, which must be
ignored) on every request. -/
def fetch404 : Option Nat → FetchResponse := fun _ => ⟨404, [evA], none⟩

/-- C8: a 404 response (event handle absent) makes getEventStream return
the empty list instead of failing, and a token query whose deposit fetch
answers 404 reconciles exactly as if the fetched deposit stream were
empty. -/
theorem getEventStream_404_empty (fetchPage fetchDeposit fetchWithdraw : Option Nat → FetchResponse)
    (address : String) (getAll getMinted : Bool)
    (h : (fetchPage none).status = 404) (hd : (fetchDeposit none).status = 404) :
    WalletClient.getEventStream fetchPage = []
    ∧ WalletClient.getTokenIds address getAll getMinted fetchDeposit fetchWithdraw
      = WalletClient.getTokenIdsFromEvents address getAll getMinted []
          (WalletClient.getEventStream fetchWithdraw) := by
  constructor
  · simp [WalletClient.getEventStream, h]
  · have he : WalletClient.getEventStream fetchDeposit = [] := by
      simp [WalletClient.getEventStream, hd]
    rw [WalletClient.getTokenIds, he]

/-- Witness for C8: the 404 collaborator yields the empty stream and an
owned-tokens query over it reconciles with an empty deposit stream. -/
theorem getEventStream_404_empty_witness :
    WalletClient.getEventStream fetch404 = []
    ∧ WalletClient.getTokenIds ("a") false false fetch404 emptyFetch
      = WalletClient.getTokenIdsFromEvents ("a") false false []
          (WalletClient.getEventStream emptyFetch) :=
  getEventStream_404_empty fetch404 fetch404 emptyFetch ("a") false false
    (by decide) (by decide)

/-- Modelled from the spec: the repository's `hex_string.ts` is absent
from src (only its test file is present), so the HexCodec is modelled
from the spec's words, pinned by the behavior the tests observe.  A hex
digit is rendered as 0-9 then lowercase a-f. -/
def hexChar (n : Nat) : Char :=
  if n < 10 then Char.ofNat (48 + n) else Char.ofNat (87 + n)

/-- Modelled from the spec: numeric value of a lowercase hex digit. -/
def hexVal (c : Char) : Nat :=
  if 97 ≤ c.toNat then c.toNat - 87 else c.toNat - 48

/-- Modelled from the spec: the characters of the canonical lowercase
textual form, digits 0-9 and lowercase a-f. -/
def isHexDigit (c : Char) : Bool :=
  (decide (48 ≤ c.toNat) && decide (c.toNat ≤ 57)) ||
  (decide (97 ≤ c.toNat) && decide (c.toNat ≤ 102))

/-- Modelled from the spec: big-endian two-digit rendering of each byte
of a buffer. -/
def bufferToHexChars : List (Fin 256) → List Char
  | [] => []
  | b :: rest => hexChar (b.val / 16) :: hexChar (b.val % 16) :: bufferToHexChars rest

/-- Modelled from the spec: a pair of hex digits decodes to one byte. -/
def hexPairToByte (c1 c2 : Char) : Fin 256 :=
  ⟨(16 * hexVal c1 + hexVal c2) % 256, Nat.mod_lt _ (by omega)⟩

/-- Modelled from the spec: decode a hex character sequence two digits
at a time. -/
def hexCharsToBuffer : List Char → List (Fin 256)
  | c1 :: c2 :: rest => hexPairToByte c1 c2 :: hexCharsToBuffer rest
  | _ => []

/-- Modelled from the spec: does the text carry the leading 0x mark? -/
def hasHexMark (s : String) : Bool :=
  match s.data with
  | c1 :: c2 :: _ => c1 == '0' && c2 == 'x'
  | _ => false

/-- Modelled from the spec: drop a leading 0x mark when present. -/
def dropHexMark (l : List Char) : List Char :=
  match l with
  | c1 :: c2 :: rest => if c1 == '0' && c2 == 'x' then rest else c1 :: c2 :: rest
  | _ => l

/-- Modelled from the spec: toHex renders a byte buffer as 0x-prefixed
lowercase hex text. -/
def toHex (b : List (Fin 256)) : String :=
  String.mk ('0' :: 'x' :: bufferToHexChars b)

/-- Modelled from the spec: fromHex accepts either textual form (with or
without the 0x mark) and decodes it back into a byte buffer. -/
def fromHex (s : String) : List (Fin 256) :=
  hexCharsToBuffer (dropHexMark s.data)

/-- Modelled from the spec: the HexString wrapper over a byte buffer;
it stores the 0x-prefixed text, as the hex_string tests observe. -/
structure HexString where
  hexString : String
deriving DecidableEq, Repr

/-- Modelled from the spec: the HexString constructor accepts input with
or without the 0x mark and stores the marked form. -/
def HexString.ofString (s : String) : HexString :=
  if hasHexMark s then ⟨s⟩ else ⟨String.mk ('0' :: 'x' :: s.data)⟩

/-- Modelled from the spec: `HexString.ensure` on a plain string wraps
it in a HexString. -/
def HexString.ensure (s : String) : HexString := HexString.ofString s

/-- Modelled from the spec: `hex()` (and `toString()`) return the stored
0x-prefixed text. -/
def HexString.hex (h : HexString) : String := h.hexString

/-- Modelled from the spec: `HexString.fromBuffer`. -/
def HexString.fromBuffer (b : List (Fin 256)) : HexString := ⟨toHex b⟩

/-- Modelled from the spec: `toBuffer` decodes the stored text. -/
def HexString.toBuffer (h : HexString) : List (Fin 256) := fromHex h.hexString

theorem hexVal_hexChar : ∀ n, n < 16 → hexVal (hexChar n) = n := by decide

theorem isHexDigit_hexChar : ∀ n, n < 16 → isHexDigit (hexChar n) = true := by decide

theorem hexVal_lt (c : Char) (h : isHexDigit c = true) : hexVal c < 16 := by
  simp only [isHexDigit, Bool.or_eq_true, Bool.and_eq_true, decide_eq_true_eq] at h
  unfold hexVal
  rcases h with ⟨h1, h2⟩ | ⟨h1, h2⟩ <;> split <;> omega

theorem hexChar_hexVal (c : Char) (h : isHexDigit c = true) : hexChar (hexVal c) = c := by
  simp only [isHexDigit, Bool.or_eq_true, Bool.and_eq_true, decide_eq_true_eq] at h
  rcases h with ⟨h1, h2⟩ | ⟨h1, h2⟩
  · have hv : hexVal c = c.toNat - 48 := by
      unfold hexVal; rw [if_neg (by omega)]
    rw [hv]
    unfold hexChar
    rw [if_pos (by omega)]
    have h48 : 48 + (c.toNat - 48) = c.toNat := by omega
    rw [h48, Char.ofNat_toNat]
  · have hv : hexVal c = c.toNat - 87 := by
      unfold hexVal; rw [if_pos h1]
    rw [hv]
    unfold hexChar
    rw [if_neg (by omega)]
    have h87 : 87 + (c.toNat - 87) = c.toNat := by omega
    rw [h87, Char.ofNat_toNat]

theorem hexCharsToBuffer_bufferToHexChars : ∀ b : List (Fin 256),
    hexCharsToBuffer (bufferToHexChars b) = b
  | [] => rfl
  | v :: rest => by
    have hlt : v.val < 256 := v.isLt
    have hdiv : v.val / 16 < 16 := (Nat.div_lt_iff_lt_mul (by omega)).mpr (by omega)
    have hmod : v.val % 16 < 16 := Nat.mod_lt _ (by omega)
    have hb : hexPairToByte (hexChar (v.val / 16)) (hexChar (v.val % 16)) = v := by
      unfold hexPairToByte
      apply Fin.ext
      simp only [hexVal_hexChar _ hdiv, hexVal_hexChar _ hmod]
      rw [Nat.div_add_mod]
      exact Nat.mod_eq_of_lt hlt
    show hexPairToByte (hexChar (v.val / 16)) (hexChar (v.val % 16))
        :: hexCharsToBuffer (bufferToHexChars rest) = v :: rest
    rw [hb, hexCharsToBuffer_bufferToHexChars rest]

theorem bufferToHexChars_hexCharsToBuffer : ∀ l : List Char,
    (∀ c ∈ l, isHexDigit c = true) → l.length % 2 = 0 →
    bufferToHexChars (hexCharsToBuffer l) = l
  | [], _, _ => rfl
  | [c], _, heven => by simp at heven
  | c1 :: c2 :: rest, hvalid, heven => by
    have h1 : isHexDigit c1 = true := hvalid c1 (by simp)
    have h2 : isHexDigit c2 = true := hvalid c2 (by simp)
    have hv1 := hexVal_lt c1 h1
    have hv2 := hexVal_lt c2 h2
    have hlt : 16 * hexVal c1 + hexVal c2 < 256 := by omega
    have hrest : bufferToHexChars (hexCharsToBuffer rest) = rest :=
      bufferToHexChars_hexCharsToBuffer rest
        (fun c hc => hvalid c (by simp [hc]))
        (by simp only [List.length_cons] at heven ⊢; omega)
    show hexChar ((16 * hexVal c1 + hexVal c2) % 256 / 16)
        :: hexChar ((16 * hexVal c1 + hexVal c2) % 256 % 16)
        :: bufferToHexChars (hexCharsToBuffer rest) = c1 :: c2 :: rest
    rw [Nat.mod_eq_of_lt hlt, hrest]
    have hdiv : (16 * hexVal c1 + hexVal c2) / 16 = hexVal c1 := by
      rw [Nat.mul_add_div (by omega)]
      simp [Nat.div_eq_of_lt hv2]
    have hmod : (16 * hexVal c1 + hexVal c2) % 16 = hexVal c2 := by
      rw [Nat.mul_add_mod]
      exact Nat.mod_eq_of_lt hv2
    rw [hdiv, hmod, hexChar_hexVal c1 h1, hexChar_hexVal c2 h2]

theorem bufferToHexChars_length : ∀ b : List (Fin 256),
    (bufferToHexChars b).length = 2 * b.length
  | [] => rfl
  | v :: rest => by
    show (bufferToHexChars rest).length + 1 + 1 = 2 * (rest.length + 1)
    rw [bufferToHexChars_length rest]
    omega

theorem bufferToHexChars_valid : ∀ (b : List (Fin 256)) (c : Char),
    c ∈ bufferToHexChars b → isHexDigit c = true
  | [], c, hc => by simp [bufferToHexChars] at hc
  | v :: rest, c, hc => by
    have hdiv : v.val / 16 < 16 := (Nat.div_lt_iff_lt_mul (by omega)).mpr (by omega)
    have hmod : v.val % 16 < 16 := Nat.mod_lt _ (by omega)
    simp only [bufferToHexChars, List.mem_cons] at hc
    rcases hc with rfl | rfl | hc
    · exact isHexDigit_hexChar _ hdiv
    · exact isHexDigit_hexChar _ hmod
    · exact bufferToHexChars_valid rest c hc

theorem dropHexMark_valid : ∀ l : List Char, (∀ c ∈ l, isHexDigit c = true) →
    dropHexMark l = l
  | [], _ => rfl
  | [_], _ => rfl
  | c1 :: c2 :: rest, hvalid => by
    have h2 : isHexDigit c2 = true := hvalid c2 (by simp)
    show (if c1 == '0' && c2 == 'x' then rest else c1 :: c2 :: rest) = c1 :: c2 :: rest
    rw [if_neg]
    rw [Bool.and_eq_true, beq_iff_eq, beq_iff_eq]
    rintro ⟨-, hx⟩
    rw [hx] at h2
    exact absurd h2 (by decide)

theorem hasHexMark_of_valid : ∀ l : List Char, (∀ c ∈ l, isHexDigit c = true) →
    hasHexMark (String.mk l) = false
  | [], _ => rfl
  | [_], _ => rfl
  | c1 :: c2 :: rest, hvalid => by
    have h2 : isHexDigit c2 = true := hvalid c2 (by simp)
    show (c1 == '0' && c2 == 'x') = false
    rw [Bool.and_eq_false_iff]
    right
    rw [beq_eq_false_iff_ne]
    rintro rfl
    exact absurd h2 (by decide)

/-- C6: for every byte buffer b, converting to hex text and back is the
identity, fromHex (toHex b) = b (also at the HexString wrapper level);
toHex always emits an even-length lowercase hex string carrying the 0x
mark; and for every accepted textual form — a valid lowercase even-length
digit sequence given with or without the 0x mark — the canonical
rendering round-trips. -/
theorem hexString_roundtrip (b : List (Fin 256)) (l : List Char)
    (hvalid : ∀ c ∈ l, isHexDigit c = true) (heven : l.length % 2 = 0) :
    fromHex (toHex b) = b
    ∧ HexString.toBuffer (HexString.fromBuffer b) = b
    ∧ (toHex b).data = '0' :: 'x' :: bufferToHexChars b
    ∧ (bufferToHexChars b).length = 2 * b.length
    ∧ (∀ c ∈ bufferToHexChars b, isHexDigit c = true)
    ∧ (HexString.ofString (String.mk l)).hex = String.mk ('0' :: 'x' :: l)
    ∧ (HexString.ofString (String.mk ('0' :: 'x' :: l))).hex = String.mk ('0' :: 'x' :: l)
    ∧ toHex (fromHex (String.mk l)) = String.mk ('0' :: 'x' :: l)
    ∧ toHex (fromHex (String.mk ('0' :: 'x' :: l))) = String.mk ('0' :: 'x' :: l)
    ∧ HexString.fromBuffer ((HexString.ofString (String.mk l)).toBuffer)
        = HexString.ofString (String.mk l)
    ∧ HexString.fromBuffer ((HexString.ofString (String.mk ('0' :: 'x' :: l))).toBuffer)
        = HexString.ofString (String.mk ('0' :: 'x' :: l)) := by
  have hdropmark : ∀ m : List Char, dropHexMark ('0' :: 'x' :: m) = m := by
    intro m
    show (if '0' == '0' && 'x' == 'x' then m else '0' :: 'x' :: m) = m
    rw [if_pos (by decide)]
  have hfromto : fromHex (toHex b) = b := by
    show hexCharsToBuffer (dropHexMark ('0' :: 'x' :: bufferToHexChars b)) = b
    rw [hdropmark]
    exact hexCharsToBuffer_bufferToHexChars b
  have hofs : HexString.ofString (String.mk l) = ⟨String.mk ('0' :: 'x' :: l)⟩ := by
    unfold HexString.ofString
    rw [hasHexMark_of_valid l hvalid]
    rfl
  have hofs2 : HexString.ofString (String.mk ('0' :: 'x' :: l))
      = ⟨String.mk ('0' :: 'x' :: l)⟩ := by
    unfold HexString.ofString
    rw [show hasHexMark (String.mk ('0' :: 'x' :: l)) = true from rfl]
    rfl
  have hparse : fromHex (String.mk l) = hexCharsToBuffer l := by
    show hexCharsToBuffer (dropHexMark l) = hexCharsToBuffer l
    rw [dropHexMark_valid l hvalid]
  have htofrom : toHex (fromHex (String.mk l)) = String.mk ('0' :: 'x' :: l) := by
    rw [hparse]
    show String.mk ('0' :: 'x' :: bufferToHexChars (hexCharsToBuffer l)) = _
    rw [bufferToHexChars_hexCharsToBuffer l hvalid heven]
  have htofrom2 : toHex (fromHex (String.mk ('0' :: 'x' :: l)))
      = String.mk ('0' :: 'x' :: l) := by
    show toHex (hexCharsToBuffer (dropHexMark ('0' :: 'x' :: l))) = _
    rw [hdropmark]
    show String.mk ('0' :: 'x' :: bufferToHexChars (hexCharsToBuffer l)) = _
    rw [bufferToHexChars_hexCharsToBuffer l hvalid heven]
  have hwrap : HexString.fromBuffer ((HexString.ofString (String.mk l)).toBuffer)
      = HexString.ofString (String.mk l) := by
    rw [hofs]
    show HexString.mk (toHex (fromHex (String.mk ('0' :: 'x' :: l))))
      = HexString.mk (String.mk ('0' :: 'x' :: l))
    rw [htofrom2]
  have hwrap2 : HexString.fromBuffer ((HexString.ofString (String.mk ('0' :: 'x' :: l))).toBuffer)
      = HexString.ofString (String.mk ('0' :: 'x' :: l)) := by
    rw [hofs2]
    show HexString.mk (toHex (fromHex (String.mk ('0' :: 'x' :: l))))
      = HexString.mk (String.mk ('0' :: 'x' :: l))
    rw [htofrom2]
  refine ⟨hfromto, hfromto, rfl, bufferToHexChars_length b, bufferToHexChars_valid b,
    ?_, ?_, htofrom, htofrom2, hwrap, hwrap2⟩
  · rw [hofs]; rfl
  · rw [hofs2]; rfl

/-- Witness for C6 at the test vector 0x007711b4d0 and at the two-digit
text "07". -/
theorem hexString_roundtrip_witness :
    fromHex (toHex [(0 : Fin 256), 119, 17, 180, 208]) = [(0 : Fin 256), 119, 17, 180, 208]
    ∧ (HexString.ofString (String.mk ['0', '7'])).hex = String.mk ['0', 'x', '0', '7']
    ∧ toHex (fromHex (String.mk ['0', '7'])) = String.mk ['0', 'x', '0', '7'] := by
  have h := hexString_roundtrip [(0 : Fin 256), 119, 17, 180, 208] ['0', '7']
      (by decide) (by decide)
  exact ⟨h.1, h.2.2.2.2.2.1, h.2.2.2.2.2.2.2.1⟩

/-- Embedding of the account constructed by `wallet_client.ts`:
`aptos_account.ts` is outside this repository's sources, so the account
records what the wallet code passes to `new AptosAccount(...)` — the key
bytes handed to the keypair construction and the optional address
override. -/
structure AptosAccount where
  keyBytes : List Nat
  addressOverride : Option String
deriving DecidableEq, Repr

/-- Embedding of `WalletClient.getAccountFromMnemonic`.  The bip39
collaborators (wordlist/checksum validation, seed derivation) are
external libraries and are passed as parameters.  The code validates the
mnemonic first, rejecting with the string "Incorrect mnemonic passed";
only on success is the seed derived and its first 32 bytes passed to the
account constructor. -/
def WalletClient.getAccountFromMnemonic (validateMnemonic : String → Bool)
    (mnemonicToSeedSync : String → List Nat) (code : String)
    (address : Option String) : Except String AptosAccount :=
  if ! validateMnemonic code then
    Except.error ("Incorrect mnemonic passed")
  else
    let seed := mnemonicToSeedSync code
    Except.ok ⟨seed.take 32, address⟩

/-- C3: a mnemonic failing wordlist/checksum validation is rejected with
the InvalidMnemonic error (the string "Incorrect mnemonic passed"), and
the rejection is independent of the seed-derivation collaborator — no
seed enters the result, hence no partial key material; a mnemonic that
passes validation yields an account whose keypair is built from the
first 32 bytes of the derived seed. -/
theorem getAccountFromMnemonic_validates_first (validateMnemonic : String → Bool)
    (toSeed toSeed2 : String → List Nat) (code : String) (address : Option String) :
    (validateMnemonic code = false →
      WalletClient.getAccountFromMnemonic validateMnemonic toSeed code address
        = Except.error ("Incorrect mnemonic passed")
      ∧ WalletClient.getAccountFromMnemonic validateMnemonic toSeed code address
        = WalletClient.getAccountFromMnemonic validateMnemonic toSeed2 code address)
    ∧ (validateMnemonic code = true →
      WalletClient.getAccountFromMnemonic validateMnemonic toSeed code address
        = Except.ok ⟨(toSeed code).take 32, address⟩) := by
  constructor
  · intro h
    constructor <;> simp [WalletClient.getAccountFromMnemonic, h]
  · intro h
    simp [WalletClient.getAccountFromMnemonic, h]

/-- Witness for C3: a validator accepting only the mnemonic "ok". -/
theorem getAccountFromMnemonic_validates_first_witness :
    WalletClient.getAccountFromMnemonic (fun code => code == ("ok"))
        (fun _ => List.range 64) ("bad") none
      = Except.error ("Incorrect mnemonic passed")
    ∧ WalletClient.getAccountFromMnemonic (fun code => code == ("ok"))
        (fun _ => List.range 64) ("ok") none
      = Except.ok ⟨(List.range 64).take 32, none⟩ := by
  have h1 := getAccountFromMnemonic_validates_first (fun code => code == ("ok"))
      (fun _ => List.range 64) (fun _ => List.range 64) ("bad") none
  have h2 := getAccountFromMnemonic_validates_first (fun code => code == ("ok"))
      (fun _ => List.range 64) (fun _ => List.range 64) ("ok") none
  exact ⟨(h1.1 (by decide)).1, h2.2 (by decide)⟩

/-- Embedding of the payload record built by `RestClient.transfer` and
`WalletClient.signGenericTransaction`: a script-function payload with a
fully qualified function name, ordered type arguments and ordered
string-encoded arguments. -/
structure TxPayload where
  type : String
  function : String
  type_arguments : List String
  arguments : List String
deriving DecidableEq, Repr

/-- The payload object literal inside `RestClient.transfer`: no
validation precedes it; the recipient is rendered through
`HexString.ensure` (template-string interpolation calls `toString`,
which is `hex()`), and the amount through `toString()`. -/
def RestClient.transferPayload (recipient : String) (amount : Int) : TxPayload :=
  { type := "script_function_payload"
    function := "0x1::TestCoin::transfer"
    type_arguments := []
    arguments := [(HexString.ensure recipient).hex, toString amount] }

/-- Embedding of `RestClient.transfer`: builds the payload, then hands
it to the generate/sign/submit pipeline of `AptosClient` (a collaborator
outside this repository, abstracted as one function) and returns the
reported hash. -/
def RestClient.transfer (clientPipeline : AptosAccount → TxPayload → String)
    (accountFrom : AptosAccount) (recipient : String) (amount : Int) : String :=
  clientPipeline accountFrom (RestClient.transferPayload recipient amount)

/-- An arbitrary concrete account used by closed statements. -/
def sampleAccount : AptosAccount := ⟨[], none⟩

/-- C5 counterexample: the Transfer payload builder performs no
validation at all — called with the empty recipient and the negative
amount -5 it does not fail, it constructs the payload (arguments
["0x", "-5"]) and the transfer submits it and returns the pipeline's
hash. -/
theorem restClient_transfer_no_validation_counterexample :
    RestClient.transferPayload ("") (-5)
      = { type := "script_function_payload"
          function := "0x1::TestCoin::transfer"
          type_arguments := []
          arguments := [("0x"), ("-5")] }
    ∧ RestClient.transfer (fun _ _ => ("h")) sampleAccount ("") (-5) = ("h") := by
  decide

/-- C5 (amended): the Transfer payload builder validates nothing: for
every recipient string (empty included) and every integer amount
(negative included) it unconditionally constructs and submits the
payload, encoding the amount in the ordered arguments as a decimal
string (never as a raw number) and the recipient in 0x-prefixed hex
form. -/
theorem restClient_transferPayload_encoding (recipient : String) (amount : Int)
    (clientPipeline : AptosAccount → TxPayload → String) (accountFrom : AptosAccount) :
    RestClient.transfer clientPipeline accountFrom recipient amount
      = clientPipeline accountFrom (RestClient.transferPayload recipient amount)
    ∧ (RestClient.transferPayload recipient amount).arguments
      = [(HexString.ensure recipient).hex, toString amount]
    ∧ ∃ rest, ((HexString.ensure recipient).hex).data = '0' :: 'x' :: rest := by
  refine ⟨rfl, rfl, ?_⟩
  unfold HexString.ensure HexString.ofString
  cases h : hasHexMark recipient with
  | true =>
    unfold hasHexMark at h
    match hd : recipient.data with
    | c1 :: c2 :: rest =>
      rw [hd] at h
      rw [Bool.and_eq_true, beq_iff_eq, beq_iff_eq] at h
      obtain ⟨rfl, rfl⟩ := h
      exact ⟨rest, by simp [HexString.hex, hd]⟩
    | [] => rw [hd] at h; exact Bool.noConfusion h
    | [c] => rw [hd] at h; exact Bool.noConfusion h
  | false =>
    exact ⟨recipient.data, by simp [HexString.hex]⟩

/-- Embedding of the facade `WalletClient.transfer`: derive the account
from the mnemonic (a rejection is re-rejected unchanged by the `.catch`),
then call the rest client's transfer and wait for the transaction.  The
two collaborators are external and passed as functions. -/
def WalletClient.transfer (validateMnemonic : String → Bool)
    (toSeed : String → List Nat)
    (restTransfer : AptosAccount → String → Int → Except String String)
    (waitForTransaction : String → Except String Unit)
    (code recipientAddress : String) (amount : Int)
    (senderAddress : Option String) : Except String Unit :=
  match WalletClient.getAccountFromMnemonic validateMnemonic toSeed code senderAddress with
  | Except.error msg => Except.error msg
  | Except.ok account =>
    match restTransfer account recipientAddress amount with
    | Except.error msg => Except.error msg
    | Except.ok txHash => waitForTransaction txHash

/-- Embedding of `WalletClient.createNFTCollection`: derive, then call
the token client's createCollection. -/
def WalletClient.createNFTCollection (validateMnemonic : String → Bool)
    (toSeed : String → List Nat)
    (createCollection : AptosAccount → String → String → String → Except String String)
    (code name description uri : String) (address : Option String) :
    Except String String :=
  match WalletClient.getAccountFromMnemonic validateMnemonic toSeed code address with
  | Except.error msg => Except.error msg
  | Except.ok account => createCollection account name description uri

/-- Embedding of `WalletClient.createNFT`: derive, then call the token
client's createToken. -/
def WalletClient.createNFT (validateMnemonic : String → Bool)
    (toSeed : String → List Nat)
    (createToken : AptosAccount → String → String → String → Int → String →
      Except String String)
    (code collectionName name description : String) (supply : Int) (uri : String)
    (address : Option String) : Except String String :=
  match WalletClient.getAccountFromMnemonic validateMnemonic toSeed code address with
  | Except.error msg => Except.error msg
  | Except.ok account => createToken account collectionName name description supply uri

/-- Embedding of `WalletClient.offerNFT`: derive, then call the token
client's offerToken. -/
def WalletClient.offerNFT (validateMnemonic : String → Bool)
    (toSeed : String → List Nat)
    (offerToken : AptosAccount → String → String → String → String → Int →
      Except String String)
    (code receiverAddress creatorAddress collectionName tokenName : String)
    (amount : Int) (address : Option String) : Except String String :=
  match WalletClient.getAccountFromMnemonic validateMnemonic toSeed code address with
  | Except.error msg => Except.error msg
  | Except.ok account =>
    offerToken account receiverAddress creatorAddress collectionName tokenName amount

/-- Embedding of `WalletClient.cancelNFTOffer`: derive, look the token
id up, then call the token client's cancelTokenOffer. -/
def WalletClient.cancelNFTOffer (validateMnemonic : String → Bool)
    (toSeed : String → List Nat)
    (getTokenId : String → String → String → Except String Nat)
    (cancelTokenOffer : AptosAccount → String → String → Nat → Except String String)
    (code receiverAddress creatorAddress collectionName tokenName : String)
    (address : Option String) : Except String String :=
  match WalletClient.getAccountFromMnemonic validateMnemonic toSeed code address with
  | Except.error msg => Except.error msg
  | Except.ok account =>
    match getTokenId creatorAddress collectionName tokenName with
    | Except.error msg => Except.error msg
    | Except.ok tokenId =>
      cancelTokenOffer account receiverAddress creatorAddress tokenId

/-- Embedding of `WalletClient.claimNFT`: derive, then call the token
client's claimToken. -/
def WalletClient.claimNFT (validateMnemonic : String → Bool)
    (toSeed : String → List Nat)
    (claimToken : AptosAccount → String → String → String → String →
      Except String String)
    (code senderAddress creatorAddress collectionName tokenName : String)
    (address : Option String) : Except String String :=
  match WalletClient.getAccountFromMnemonic validateMnemonic toSeed code address with
  | Except.error msg => Except.error msg
  | Except.ok account =>
    claimToken account senderAddress creatorAddress collectionName tokenName

/-- Embedding of `WalletClient.signGenericTransaction`: derive, build
the generic script-function payload from the caller's function name and
arguments, then submit through the token client's helper. -/
def WalletClient.signGenericTransaction (validateMnemonic : String → Bool)
    (toSeed : String → List Nat)
    (submitTransactionHelper : AptosAccount → TxPayload → Except String String)
    (code func : String) (address : Option String) (args : List String) :
    Except String String :=
  match WalletClient.getAccountFromMnemonic validateMnemonic toSeed code address with
  | Except.error msg => Except.error msg
  | Except.ok account =>
    submitTransactionHelper account
      { type := "script_function_payload"
        function := func
        type_arguments := []
        arguments := args }

/-- C7: every facade operation taking a mnemonic — transfer,
createNFTCollection, createNFT, offerNFT, cancelNFTOffer, claimNFT,
signGenericTransaction — rejects with the exact error value produced by
the failed account derivation, unchanged, and for every choice of the
downstream collaborators the result is that same error: no transaction
is built or submitted. -/
theorem facade_propagates_mnemonic_failure (validateMnemonic : String → Bool)
    (toSeed : String → List Nat) (e : String)
    (restTransfer : AptosAccount → String → Int → Except String String)
    (waitForTransaction : String → Except String Unit)
    (createCollection : AptosAccount → String → String → String → Except String String)
    (createToken : AptosAccount → String → String → String → Int → String →
      Except String String)
    (offerToken : AptosAccount → String → String → String → String → Int →
      Except String String)
    (getTokenId : String → String → String → Except String Nat)
    (cancelTokenOffer : AptosAccount → String → String → Nat → Except String String)
    (claimToken : AptosAccount → String → String → String → String →
      Except String String)
    (submitTransactionHelper : AptosAccount → TxPayload → Except String String)
    (code s1 s2 s3 s4 : String) (amount supply : Int) (address : Option String)
    (args : List String)
    (h : WalletClient.getAccountFromMnemonic validateMnemonic toSeed code address
      = Except.error e) :
    WalletClient.transfer validateMnemonic toSeed restTransfer waitForTransaction
        code s1 amount address = Except.error e
    ∧ WalletClient.createNFTCollection validateMnemonic toSeed createCollection
        code s1 s2 s3 address = Except.error e
    ∧ WalletClient.createNFT validateMnemonic toSeed createToken
        code s1 s2 s3 supply s4 address = Except.error e
    ∧ WalletClient.offerNFT validateMnemonic toSeed offerToken
        code s1 s2 s3 s4 amount address = Except.error e
    ∧ WalletClient.cancelNFTOffer validateMnemonic toSeed getTokenId cancelTokenOffer
        code s1 s2 s3 s4 address = Except.error e
    ∧ WalletClient.claimNFT validateMnemonic toSeed claimToken
        code s1 s2 s3 s4 address = Except.error e
    ∧ WalletClient.signGenericTransaction validateMnemonic toSeed
        submitTransactionHelper code s1 address args = Except.error e := by
  refine ⟨?_, ?_, ?_, ?_, ?_, ?_, ?_⟩ <;>
    simp only [WalletClient.transfer, WalletClient.createNFTCollection,
      WalletClient.createNFT, WalletClient.offerNFT, WalletClient.cancelNFTOffer,
      WalletClient.claimNFT, WalletClient.signGenericTransaction, h]

/-- Witness for C7: with a validator rejecting every mnemonic, all seven
facade operations reject with exactly "Incorrect mnemonic passed", for
an arbitrary choice of collaborators that would otherwise succeed. -/
theorem facade_propagates_mnemonic_failure_witness :
    WalletClient.transfer (fun _ => false) (fun _ => List.range 64)
        (fun _ _ _ => Except.ok ("hash")) (fun _ => Except.ok ())
        ("m") ("r") 7 none = Except.error ("Incorrect mnemonic passed")
    ∧ WalletClient.offerNFT (fun _ => false) (fun _ => List.range 64)
        (fun _ _ _ _ _ _ => Except.ok ("hash"))
        ("m") ("r") ("c") ("col") ("tok") 1 none
      = Except.error ("Incorrect mnemonic passed")
    ∧ WalletClient.signGenericTransaction (fun _ => false) (fun _ => List.range 64)
        (fun _ _ => Except.ok ("hash")) ("m") ("f") none []
      = Except.error ("Incorrect mnemonic passed") := by
  have h := facade_propagates_mnemonic_failure (fun _ => false) (fun _ => List.range 64)
      ("Incorrect mnemonic passed")
      (fun _ _ _ => Except.ok ("hash")) (fun _ => Except.ok ())
      (fun _ _ _ _ => Except.ok ("hash"))
      (fun _ _ _ _ _ _ => Except.ok ("hash"))
      (fun _ _ _ _ _ _ => Except.ok ("hash"))
      (fun _ _ _ => Except.ok 0)
      (fun _ _ _ _ => Except.ok ("hash"))
      (fun _ _ _ _ _ => Except.ok ("hash"))
      (fun _ _ => Except.ok ("hash"))
      ("m") ("r") ("c") ("col") ("tok") 7 1 none []
      rfl
  exact ⟨h.1, h.2.2.2.1, h.2.2.2.2.2.2⟩

/-- Shape of the object `createWallet` resolves with: the mnemonic and
the derived account's address in no-mark form. -/
structure CreatedWallet where
  code : String
  addressKey : String
deriving DecidableEq, Repr

/-- Shape of the object `importWallet` resolves with. -/
structure ImportedWallet where
  authKey : String
  addressKey : String
deriving DecidableEq, Repr

/-- Embedding of `WalletClient.createWallet`.  The generated mnemonic
(bip39.generateMnemonic, external) is the `generatedCode` parameter; the
account's `authKey()` and `address().noPrefix()` (both computed by the
external `aptos_account.ts`) are the two projection parameters.  The
second component of the result is the ordered list of
`faucetClient.fundAccount` invocations (argument pair: address funded,
amount) awaited before the promise resolves. -/
def WalletClient.createWallet (validateMnemonic : String → Bool)
    (toSeed : String → List Nat) (authKeyOf addressKeyOf : AptosAccount → String)
    (generatedCode : String) :
    Except String (CreatedWallet × List (String × Nat)) :=
  match WalletClient.getAccountFromMnemonic validateMnemonic toSeed generatedCode none with
  | Except.error msg => Except.error msg
  | Except.ok account =>
    Except.ok ({ code := generatedCode, addressKey := addressKeyOf account },
      [(authKeyOf account, 10)])

/-- Embedding of `WalletClient.importWallet`, with the same effect-trace
convention as createWallet. -/
def WalletClient.importWallet (validateMnemonic : String → Bool)
    (toSeed : String → List Nat) (authKeyOf addressKeyOf : AptosAccount → String)
    (code : String) (address : Option String) :
    Except String (ImportedWallet × List (String × Nat)) :=
  match WalletClient.getAccountFromMnemonic validateMnemonic toSeed code address with
  | Except.error msg => Except.error msg
  | Except.ok account =>
    Except.ok ({ authKey := authKeyOf account, addressKey := addressKeyOf account },
      [(authKeyOf account, 10)])

/-- C10: both createWallet and importWallet invoke the faucet's
fundAccount exactly once, with amount 10, on the derived account's
authentication key, before resolving — importing is not a pure
derivation. -/
theorem createWallet_importWallet_fund_ten (validateMnemonic : String → Bool)
    (toSeed : String → List Nat) (authKeyOf addressKeyOf : AptosAccount → String)
    (generatedCode importedCode : String) (address : Option String)
    (hg : validateMnemonic generatedCode = true)
    (hi : validateMnemonic importedCode = true) :
    WalletClient.createWallet validateMnemonic toSeed authKeyOf addressKeyOf generatedCode
      = Except.ok (CreatedWallet.mk generatedCode
            (addressKeyOf ⟨(toSeed generatedCode).take 32, none⟩),
          [(authKeyOf ⟨(toSeed generatedCode).take 32, none⟩, 10)])
    ∧ WalletClient.importWallet validateMnemonic toSeed authKeyOf addressKeyOf
        importedCode address
      = Except.ok (ImportedWallet.mk
            (authKeyOf ⟨(toSeed importedCode).take 32, address⟩)
            (addressKeyOf ⟨(toSeed importedCode).take 32, address⟩),
          [(authKeyOf ⟨(toSeed importedCode).take 32, address⟩, 10)]) := by
  constructor
  · simp [WalletClient.createWallet, WalletClient.getAccountFromMnemonic, hg]
  · simp [WalletClient.importWallet, WalletClient.getAccountFromMnemonic, hi]

/-- Witness for C10 with a concrete validator, seed function and key
projections. -/
theorem createWallet_importWallet_fund_ten_witness :
    WalletClient.createWallet (fun _ => true) (fun _ => List.range 64)
        (fun a => toString a.keyBytes.length) (fun _ => ("ad")) ("gen")
      = Except.ok (CreatedWallet.mk ("gen") ("ad"), [(("32"), 10)])
    ∧ WalletClient.importWallet (fun _ => true) (fun _ => List.range 64)
        (fun a => toString a.keyBytes.length) (fun _ => ("ad")) ("imp") none
      = Except.ok (ImportedWallet.mk ("32") ("ad"), [(("32"), 10)]) := by
  have h := createWallet_importWallet_fund_ten (fun _ => true) (fun _ => List.range 64)
      (fun a => toString a.keyBytes.length) (fun _ => ("ad")) ("gen") ("imp") none
      rfl rfl
  rw [h.1, h.2]
  exact ⟨rfl, rfl⟩
